import Mathlib

/-!
Verification of the multi-level oriented-annotation conversion pipeline:
a shallow embedding of `tools/hrsc_to_dota_all_levels.py` (the Batch
Converter with its Geometry Converter, Taxonomy Mapper, Label Sanitizer
and Annotation Extractor) and of `tools/dota_to_coco_multilevel.py` (the
Assembler), together with theorems settling the specification claims.

Numeric values carried through the pipeline are embedded as rationals
(`ℚ`): the Python floats are used only for finite decimal arithmetic that
the claims quantify exactly over the reals.  The trigonometric pair
`math.cos ang, math.sin ang` is abstracted as an explicit argument
`tr : ℚ → ℚ × ℚ` (the cosine/sine oracle); a run of the real program
corresponds to an oracle whose values lie on the unit circle,
`(tr a).1 ^ 2 + (tr a).2 ^ 2 = 1`.
-/

namespace ReDet

/-! ## Python string primitives -/

/-- The six characters Python `str.strip()` / `str.split()` treat as
whitespace: space, tab, newline, carriage return, vertical tab, form feed. -/
def pyIsSpace (c : Char) : Bool :=
  c == ' ' || c == '\t' || c == '\n' || c == '\r' || c == '\x0b' || c == '\x0c'

/-- Drop leading and trailing Python whitespace from a character list. -/
def trimL (cs : List Char) : List Char :=
  ((cs.dropWhile pyIsSpace).reverse.dropWhile pyIsSpace).reverse

/-- Python `str.strip()`. -/
def trimS (s : String) : String := ⟨trimL s.data⟩

/-- Python `str.lower()` (all names in this pipeline are ASCII). -/
def lowerS (s : String) : String := ⟨s.data.map Char.toLower⟩

/-- Python `str.replace(a, b)` for single characters. -/
def replC (a b : Char) (s : String) : String :=
  ⟨s.data.map (fun c => if c == a then b else c)⟩

/-- Does `pat` occur at the start of `cs`? -/
def startsWithL : List Char → List Char → Bool
  | [], _ => true
  | _ :: _, [] => false
  | p :: ps, c :: cs => p == c && startsWithL ps cs

/-- Does `pat` occur anywhere inside `cs`?  Embeds Python `pat in s`. -/
def substrInL (pat : List Char) : List Char → Bool
  | [] => pat.isEmpty
  | c :: cs => startsWithL pat (c :: cs) || substrInL pat cs

/-- Python substring containment `pat in s`. -/
def substrIn (s pat : String) : Bool := substrInL pat.data s.data

/-- Accumulator loop behind `splitWs`: `cur` is the word being read,
in reverse. -/
def splitWsGo : List Char → List Char → List (List Char)
  | [], cur => if cur.isEmpty then [] else [cur.reverse]
  | c :: cs, cur =>
    if pyIsSpace c then
      if cur.isEmpty then splitWsGo cs [] else cur.reverse :: splitWsGo cs []
    else splitWsGo cs (c :: cur)

/-- Python `str.split()` with no argument: split on runs of whitespace,
discarding empty fields. -/
def splitWs (s : String) : List String :=
  (splitWsGo s.data []).map (fun l => ⟨l⟩)

/-- Value of a run of decimal digits, most significant first. -/
def digitsVal (cs : List Char) : Nat :=
  cs.foldl (fun v c => v * 10 + (c.toNat - 48)) 0

/-- Models Python `float(s)` on optionally signed plain decimal literals
(`"8"`, `"8.0"`, `".5"`, `"-3.25"`), returning `none` when `s` is not such
a literal — in the program that is the `ValueError` caught by the caller.
Exponent, infinity and NaN forms are not produced by this pipeline and
are likewise mapped to `none`. -/
def pyFloat? (s : String) : Option ℚ :=
  let cs := trimL s.data
  let sign : ℚ × List Char :=
    match cs with
    | '-' :: rest => (-1, rest)
    | '+' :: rest => (1, rest)
    | _ => (1, cs)
  let ip := sign.2.takeWhile Char.isDigit
  let rest := sign.2.dropWhile Char.isDigit
  match rest with
  | [] =>
    if ip.isEmpty then none
    else some (sign.1 * (digitsVal ip : ℚ))
  | '.' :: fp =>
    if fp.all Char.isDigit && !(ip.isEmpty && fp.isEmpty) then
      some (sign.1 * ((digitsVal ip : ℚ) + (digitsVal fp : ℚ) / (10 : ℚ) ^ fp.length))
    else none
  | _ => none

/-! ## Taxonomy tables (`hrsc_to_dota_all_levels.py`) -/

/-- `HRSC_CLASSES`: the 31 fine-grained (L3) class names. -/
def HRSC_CLASSES : List String :=
  ["ship", "aircraft carrier", "warcraft", "merchant ship",
   "Nimitz", "Enterprise", "Arleigh Burke", "WhidbeyIsland",
   "Perry", "Sanantonio", "Ticonderoga", "Kitty Hawk",
   "Kuznetsov", "Abukuma", "Austen", "Tarawa", "Blue Ridge",
   "Container", "OXo|--)", "Car carrier([]==[])",
   "Hovercraft", "yacht", "CntShip(_|.--.--|_]=", "Cruise",
   "submarine", "lute", "Medical", "Car carrier(======|",
   "Ford-class", "Midway-class", "Invincible-class"]

/-- `HRSC_CLASSES_ID`: the two-digit ids paired positionally with
`HRSC_CLASSES`. -/
def HRSC_CLASSES_ID : List String :=
  ["01", "02", "03", "04", "05", "06", "07", "08", "09", "10", "11", "12",
   "13", "14", "15", "16", "17", "18", "19", "20", "22", "24", "25", "26",
   "27", "28", "29", "30", "31", "32", "33"]

/-- `build_id_maps`: the `full_id → L3 name` dictionary, keys
`"1000000" ++ two-digit id`. -/
def full2name : List (String × String) :=
  (HRSC_CLASSES_ID.zip HRSC_CLASSES).map (fun p => ("1000000" ++ p.1, p.2))

/-- Python `full2l3.get(class_id, "ship")`. -/
def full2nameGet (class_id : String) : String :=
  match full2name.lookup class_id with
  | some n => n
  | none => "ship"

/-- `carrier_keys` of `l3_to_l2`. -/
def carrier_keys : List String :=
  ["nimitz", "enterprise", "kitty hawk", "kuznetsov",
   "ford-class", "midway-class", "invincible-class"]

/-- `warship_keys` of `l3_to_l2`. -/
def warship_keys : List String :=
  ["arleigh burke", "whidbeyisland", "perry", "sanantonio",
   "ticonderoga", "abukuma", "austen", "tarawa", "blue ridge"]

/-- `merchant_keys` of `l3_to_l2`. -/
def merchant_keys : List String :=
  ["container", "cntship", "car carrier", "cruise", "yacht",
   "hovercraft", "medical", "lute", "oxo|--)"]

/-- `l3_to_l2`: merge an L3 name into the coarse taxonomy, with the
fallback value `"ship"` for `"ship"` itself and for unmatched names. -/
def l3_to_l2 (name : String) : String :=
  let n := lowerS (trimS name)
  if substrIn n "submarine" then "submarine"
  else if substrIn n "aircraft carrier" || substrIn n "carrier" then "aircraft carrier"
  else if n == "warcraft" then "warship"
  else if n == "merchant ship" then "merchant ship"
  else if carrier_keys.any (fun k => substrIn n k) then "aircraft carrier"
  else if warship_keys.any (fun k => substrIn n k) then "warship"
  else if merchant_keys.any (fun k => substrIn n k) then "merchant ship"
  else if n == "ship" then "ship"
  else "ship"

/-- The four coarse (L2) names. -/
def L2_COARSE : List String :=
  ["aircraft carrier", "warship", "merchant ship", "submarine"]

/-! ## Label Sanitizer -/

/-- A character matched by neither side of the regex class
`[^0-9a-zA-Z_]` — i.e. a word character. -/
def isWordChar (c : Char) : Bool := c.isDigit || c.isAlpha || c == '_'

/-- Collapse every run of underscores to a single underscore
(`re.sub(r'_+', '_', s)`). -/
def collapseU : List Char → List Char
  | [] => []
  | [c] => [c]
  | a :: b :: rest =>
    if a == '_' && b == '_' then collapseU (b :: rest)
    else a :: collapseU (b :: rest)

/-- `s.strip('_')`. -/
def stripU (cs : List Char) : List Char :=
  ((cs.dropWhile (· == '_')).reverse.dropWhile (· == '_')).reverse

/-- `sanitize_label`: strip, lowercase, space→underscore, substitute
non-word characters by underscores, collapse underscore runs, strip
underscores, default `"ship"` when empty.  The source substitutes each
*run* of non-word characters by one underscore and then collapses
underscore runs; substituting per character before the same collapse
computes the identical composite. -/
def sanitize_label (s : String) : String :=
  let s1 := replC ' ' '_' (lowerS (trimS s))
  let s2 := s1.data.map (fun c => if isWordChar c then c else '_')
  let s3 := stripU (collapseU s2)
  if s3.isEmpty then "ship" else ⟨s3⟩

/-! ## Geometry Converter -/

/-- `rbox2poly_single`: rotated box `(cx, cy, w, h, ang)` to the flattened
4-vertex polygon, vertex order top-left, top-right, bottom-right,
bottom-left of the unrotated box.  `tr` supplies the pair
`(math.cos ang, math.sin ang)`. -/
def rbox2poly_single (tr : ℚ → ℚ × ℚ) (rbox : ℚ × ℚ × ℚ × ℚ × ℚ) : List ℚ :=
  match rbox with
  | (cx, cy, w, h, ang) =>
    let dx := w / 2
    let dy := h / 2
    let pts : List (ℚ × ℚ) := [(-dx, -dy), (dx, -dy), (dx, dy), (-dx, dy)]
    let ca := (tr ang).1
    let sa := (tr ang).2
    pts.foldl
      (fun poly p => poly ++ [p.1 * ca - p.2 * sa + cx, p.1 * sa + p.2 * ca + cy])
      []

/-- Python slice `poly[0::2]`. -/
def evens : List ℚ → List ℚ
  | [] => []
  | [x] => [x]
  | x :: _ :: rest => x :: evens rest

/-- Python slice `poly[1::2]`. -/
def odds : List ℚ → List ℚ
  | [] => []
  | [_] => []
  | _ :: y :: rest => y :: odds rest

/-- The signed shoelace sum `Σ xs[i]*ys[(i+1)%n] − xs[(i+1)%n]*ys[i]`. -/
def shoelaceSum (xs ys : List ℚ) (n : Nat) : ℚ :=
  (List.range n).foldl
    (fun s i =>
      s + (xs.getD i 0 * ys.getD ((i + 1) % n) 0
            - xs.getD ((i + 1) % n) 0 * ys.getD i 0))
    0

/-- `_Util._poly_area`: absolute shoelace sum over the x/y slices, halved.
(The `getD 0` defaults are never hit on the 8-scalar polygons this
pipeline produces, where both slices have length 4.) -/
def poly_area (poly : List ℚ) : ℚ :=
  |shoelaceSum (evens poly) (odds poly) (evens poly).length| / 2

/-! ## Annotation Extractor -/

/-- One `HRSC_Object` node: each field is the `findtext` result for the
fixed tag of the same name, `none` when the child element is absent. -/
structure XmlObj where
  class_id : Option String
  difficult : Option String
  mbox_cx : Option String
  mbox_cy : Option String
  mbox_w : Option String
  mbox_h : Option String
  mbox_ang : Option String
deriving DecidableEq, Repr

/-- One per-image annotation document: either `ET.parse` raised, or it
yielded a root whose `HRSC_Objects` child (when present) holds the list
of `HRSC_Object` nodes. -/
inductive XmlDoc where
  | unparseable
  | parsed (hrsc_objects : Option (List XmlObj))

/-- The body of the `for obj in parent.findall('HRSC_Object')` loop:
`none` exactly when one of the five numeric fields is missing or fails
`float` (the `except: continue` path). -/
def parseItem (tr : ℚ → ℚ × ℚ) (obj : XmlObj) : Option (List ℚ × String × Nat) :=
  let class_id := trimS (obj.class_id.getD "")
  let diff : Nat := if trimS (obj.difficult.getD "0") == "1" then 1 else 0
  (pyFloat? (obj.mbox_cx.getD "")).bind fun cx =>
  (pyFloat? (obj.mbox_cy.getD "")).bind fun cy =>
  (pyFloat? (obj.mbox_w.getD "")).bind fun w =>
  (pyFloat? (obj.mbox_h.getD "")).bind fun h =>
  (pyFloat? (obj.mbox_ang.getD "")).map fun ang =>
    (rbox2poly_single tr (cx, cy, w, h, ang), class_id, diff)

/-- `parse_xml_items`: items of one document.  A document that fails to
parse contributes no items (the source also prints a warning — pure
console output, not modelled); a root without `HRSC_Objects` likewise. -/
def parse_xml_items (tr : ℚ → ℚ × ℚ) : XmlDoc → List (List ℚ × String × Nat)
  | .unparseable => []
  | .parsed none => []
  | .parsed (some objs) => objs.filterMap (parseItem tr)

/-! ## Multi-Level Batch Converter -/

/-- Recognized image extensions of `convert_split`. -/
def IMG_EXTS : List String := [".bmp", ".jpg", ".png", ".tif", ".tiff"]

/-- Does `cs` end with `suf`? -/
def endsWithL (suf cs : List Char) : Bool := startsWithL suf.reverse cs.reverse

/-- `n.lower().endswith(('.bmp', '.jpg', '.png', '.tif', '.tiff'))`. -/
def hasImgExt (n : String) : Bool :=
  IMG_EXTS.any (fun e => endsWithL e.data (lowerS n).data)

/-- `osp.splitext(n)[0]`: everything before the last dot, except that a
basename consisting only of leading dots before that position is not
split. -/
def stemOf (n : String) : String :=
  let cs := n.data
  let revTail := cs.reverse.takeWhile (· != '.')
  if revTail.length = cs.length then n
  else
    let stem := cs.take (cs.length - revTail.length - 1)
    if stem.all (· == '.') then n else ⟨stem⟩

/-- The image stems of a split, in `os.listdir` order. -/
def img_stems (imgFiles : List String) : List String :=
  (imgFiles.filter hasImgExt).map stemOf

/-- One DOTA text row
`x1 y1 x2 y2 x3 y3 x4 y4 <name> <difficult>` — the f-string
interpolation with single spaces.  The eight coordinates arrive already
formatted (Python `str` of a float, which never contains whitespace). -/
def dotaRow (coords : List String) (name : String) (diff : Nat) : String :=
  String.intercalate " " (coords ++ [name, toString diff])

/-- The per-object loop of `convert_split`, producing the `rows_l1`,
`rows_l2`, `rows_l3` lists.  `fmt` is Python `str` on floats. -/
def convertRows (strict_l2 sanitize_l3 : Bool) (fmt : ℚ → String) :
    List (List ℚ × String × Nat) → List String × List String × List String
  | [] => ([], [], [])
  | (poly, class_id, diff) :: rest =>
    let r := convertRows strict_l2 sanitize_l3 fmt rest
    let l3_name := full2nameGet class_id
    let l3_for_write := if sanitize_l3 then sanitize_label l3_name else l3_name
    let l2_name := l3_to_l2 l3_name
    let coords := poly.map fmt
    (dotaRow coords "ship" diff :: r.1,
     if l2_name == "ship" && strict_l2 then r.2.1
     else dotaRow coords l2_name diff :: r.2.1,
     dotaRow coords l3_for_write diff :: r.2.2)

/-- The three per-level files written for one image stem. -/
structure SplitWrite where
  stem : String
  rows_l1 : List String
  rows_l2 : List String
  rows_l3 : List String
deriving DecidableEq, Repr

/-- `convert_split`: for each image stem (in listing order) the three
per-level row lists written under the `L1`/`L2`/`L3` output directories.
`ann stem` is the annotation document at `Annotations/<stem>.xml`, `none`
when `osp.exists` fails; the absent-annotation branch writes three empty
files. -/
def convert_split (tr : ℚ → ℚ × ℚ) (fmt : ℚ → String) (imgFiles : List String)
    (ann : String → Option XmlDoc) (strict_l2 sanitize_l3 : Bool) :
    List SplitWrite :=
  (img_stems imgFiles).map (fun stem =>
    match ann stem with
    | none => ⟨stem, [], [], []⟩
    | some doc =>
      let items := parse_xml_items tr doc
      let r := convertRows strict_l2 sanitize_l3 fmt items
      ⟨stem, r.1, r.2.1, r.2.2⟩)

/-- `write_labeltxt`: the file content for a row list (empty file for no
rows, else newline-joined rows plus a trailing newline). -/
def write_labeltxt (rows : List String) : String :=
  if rows.isEmpty then "" else String.intercalate "\n" rows ++ "\n"

/-! ## Assembler class lists (`dota_to_coco_multilevel.py`) -/

/-- `L1_NAMES`. -/
def L1_NAMES : List String := ["ship"]

/-- `L2_NAMES`. -/
def L2_NAMES : List String :=
  ["aircraft carrier", "warship", "merchant ship", "submarine"]

/-- `L3_NAMES_RAW`. -/
def L3_NAMES_RAW : List String := HRSC_CLASSES

/-- `L3_NAMES_SANITIZED`. -/
def L3_NAMES_SANITIZED : List String :=
  ["ship", "aircraft_carrier", "warcraft", "merchant_ship", "nimitz",
   "enterprise", "arleigh_burke", "whidbeyisland", "perry", "sanantonio",
   "ticonderoga", "kitty_hawk", "kuznetsov", "abukuma", "austen", "tarawa",
   "blue_ridge", "container", "oxo", "car_carrier", "hovercraft", "yacht",
   "cntship", "cruise", "submarine", "lute", "medical", "car_carrier_eq",
   "ford_class", "midway_class", "invincible_class"]

/-! ## Assembler: DOTA line parsing -/

/-- One object parsed from a DOTA annotation line. -/
structure DotaObj where
  name : String
  poly : List ℚ
  area : ℚ
deriving DecidableEq, Repr

/-- `list(map(float, parts))`: all tokens as floats, or the
`ValueError` path. -/
def allFloats? : List String → Option (List ℚ)
  | [] => some []
  | s :: rest =>
    match pyFloat? s, allFloats? rest with
    | some v, some vs => some (v :: vs)
    | _, _ => none

/-- The body of the `for line in f` loop of `_Util.parse_dota_poly2`:
`none` on a blank line, a line with fewer than 10 whitespace-separated
parts, or a line whose first 8 parts are not all floats. -/
def parseLine? (line : String) : Option DotaObj :=
  let l := trimS line
  if l.isEmpty then none
  else
    let parts := splitWs l
    if parts.length < 10 then none
    else
      match allFloats? (parts.take 8) with
      | none => none
      | some coords => some ⟨parts.getD 8 "", coords, poly_area coords⟩

/-- `_Util.parse_dota_poly2` over the file's lines. -/
def parse_dota_poly2 (lines : List String) : List DotaObj :=
  lines.filterMap parseLine?

/-! ## Assembler: category resolution and ids -/

/-- The category-name resolution inside `convert_one_split`'s object
loop: exact membership wins; otherwise strict mode drops; otherwise the
`try_names` list `[name, name.lower(), name.replace('_', ' ')]` is
scanned and the first member of `class_names` wins (`matched`), dropping
the instance when the scan fails. -/
def resolveCategory (class_names : List String) (strict : Bool) (name : String) :
    Option String :=
  if class_names.contains name then some name
  else if strict then none
  else List.find? (fun t => class_names.contains t)
    [name, lowerS name, replC '_' ' ' name]

/-- An `images[]` entry. -/
structure ImgEntry where
  file_name : String
  id : Nat
  width : Nat
  height : Nat
deriving DecidableEq, Repr

/-- A `categories[]` entry. -/
structure CatEntry where
  id : Nat
  name : String
  supercategory : String
deriving DecidableEq, Repr

/-- An `annotations[]` entry. -/
structure AnnEntry where
  id : Nat
  image_id : Nat
  category_id : Nat
  segmentation : List (List ℚ)
  area : ℚ
  bbox : List ℚ
  iscrowd : Nat
deriving DecidableEq, Repr

/-- `build_categories` unrolled with its `enumerate` counter. -/
def build_categories_from (idx : Nat) : List String → List CatEntry
  | [] => []
  | n :: rest => ⟨idx + 1, n, n⟩ :: build_categories_from (idx + 1) rest

/-- `build_categories`: 1-based ids in `class_names` order. -/
def build_categories (class_names : List String) : List CatEntry :=
  build_categories_from 0 class_names

/-- `min` over a Python list (the polygons here always have 4 vertices,
so the empty default is never reached). -/
def listMin : List ℚ → ℚ
  | [] => 0
  | x :: xs => xs.foldl min x

/-- `max` over a Python list. -/
def listMax : List ℚ → ℚ
  | [] => 0
  | x :: xs => xs.foldl max x

/-- The bbox computation of `convert_one_split`:
`[xmin, ymin, xmax - xmin, ymax - ymin]` over the vertex slices. -/
def bboxOf (poly : List ℚ) : List ℚ :=
  let xmin := listMin (evens poly)
  let ymin := listMin (odds poly)
  let xmax := listMax (evens poly)
  let ymax := listMax (odds poly)
  [xmin, ymin, xmax - xmin, ymax - ymin]

/-! ## Assembler: main loop -/

/-- The image extensions `convert_one_split` probes, in priority order. -/
def ASM_EXTS : List String := [".bmp", ".jpg", ".png", ".tif", ".tiff", ".jpeg"]

/-- The image-locating loop: the first extension for which
`images/<stem><ext>` exists, with that file's pixel dimensions.  The
image directory is a list of `(file name, (width, height))`. -/
def findImage (imageDir : List (String × Nat × Nat)) (stem : String) :
    Option (String × Nat × Nat) :=
  match ASM_EXTS.find? (fun e => (imageDir.lookup (stem ++ e)).isSome) with
  | none => none
  | some e => (imageDir.lookup (stem ++ e)).map (fun d => (stem ++ e, d))

/-- The `for obj in objects` loop: consume the parsed objects of one
label file, appending accepted annotation entries and advancing the
global `ann_id` counter. -/
def objsLoop (class_names : List String) (strict : Bool) (image_id : Nat) :
    List DotaObj → Nat → List AnnEntry × Nat
  | [], ann_id => ([], ann_id)
  | obj :: rest, ann_id =>
    match resolveCategory class_names strict obj.name with
    | none => objsLoop class_names strict image_id rest ann_id
    | some nm =>
      let cat_id := class_names.indexOf nm + 1
      let ann : AnnEntry :=
        ⟨ann_id, image_id, cat_id, [obj.poly], obj.area, bboxOf obj.poly, 0⟩
      let r := objsLoop class_names strict image_id rest (ann_id + 1)
      (ann :: r.1, r.2)

/-- The `for lf in label_files` loop of `convert_one_split`: each label
file is `(file name, lines)`; files whose image cannot be located are
skipped whole (neither counter advances), otherwise the image entry is
registered and the file's objects are processed. -/
def splitLoop (imageDir : List (String × Nat × Nat)) (class_names : List String)
    (strict : Bool) :
    List (String × List String) → Nat → Nat → List ImgEntry × List AnnEntry
  | [], _, _ => ([], [])
  | (fname, lines) :: rest, image_id, ann_id =>
    let stem := stemOf fname
    match findImage imageDir stem with
    | none => splitLoop imageDir class_names strict rest image_id ann_id
    | some found =>
      let img : ImgEntry := ⟨found.1, image_id, found.2.1, found.2.2⟩
      let objects := parse_dota_poly2 lines
      let objs := objsLoop class_names strict image_id objects ann_id
      let r := splitLoop imageDir class_names strict rest (image_id + 1) objs.2
      (img :: r.1, objs.1 ++ r.2)

/-- The `info` block of `build_info` (the `year` entry is numeric in the
source; all values are carried as strings here). -/
def build_info : List (String × String) :=
  [("contributor", "converted by dota_to_coco_multilevel.py"),
   ("description", "HRSC (DOTA→COCO)"),
   ("version", "1.0"),
   ("year", "2025")]

/-- The UnifiedDatasetDescription document. -/
structure CocoData where
  info : List (String × String)
  images : List ImgEntry
  categories : List CatEntry
  annotations : List AnnEntry
deriving DecidableEq, Repr

/-- `convert_one_split` up to the final JSON write: the assembled
document for one granularity level.  The label files are given in the
iteration order of the source (`sorted(glob('*.txt'))`). -/
def convert_one_split (labelFiles : List (String × List String))
    (imageDir : List (String × Nat × Nat)) (class_names : List String)
    (strict : Bool) : CocoData :=
  let r := splitLoop imageDir class_names strict labelFiles 1 1
  ⟨build_info, r.1, build_categories class_names, r.2⟩

/-! ## Assembler: destination write -/

/-- `posixpath.dirname`: the text up to the last `/`, with trailing
slashes stripped unless the head is all slashes; the empty string when
the path has no directory component. -/
def dirnameP (p : String) : String :=
  let cs := p.data
  let tailLen := (cs.reverse.takeWhile (· != '/')).length
  let head := cs.take (cs.length - tailLen)
  if head.isEmpty || head.all (· == '/') then ⟨head⟩
  else ⟨(head.reverse.dropWhile (· == '/')).reverse⟩

/-- Models `os.makedirs(name, exist_ok=True)` over the set of existing
paths: `mkdir("")` fails with `FileNotFoundError` (POSIX `ENOENT`), and
`exist_ok` does not suppress it because `isdir("")` is false; any other
name is created together with its missing ancestors (abstracted as
recording the name). -/
def makedirsExistOk (fs : List String) (name : String) :
    Except String (List String) :=
  if name = "" then .error "FileNotFoundError" else .ok (name :: fs)

/-- The destination-write step of `convert_one_split`:
`os.makedirs(osp.dirname(destfile), exist_ok=True)` followed by opening
`destfile` and dumping the JSON document. -/
def saveDest (fs : List String) (destfile : String) :
    Except String (List String) :=
  match makedirsExistOk fs (dirnameP destfile) with
  | .error e => .error e
  | .ok fs2 => .ok (destfile :: fs2)

/-! ## Theorems -/

/-- C3 counterexample: `"ship"` is one of the 31 defined fine-grained
names, yet `l3_to_l2` maps it to `"ship"`, which is not one of the 4
coarse names — so neither "every input string maps to exactly one of the
4 coarse names" nor "for every one of the 31 defined fine-grained names
it returns one of exactly those 4 coarse names" holds as stated. -/
theorem l3_to_l2_ship_not_coarse :
    "ship" ∈ HRSC_CLASSES ∧ l3_to_l2 "ship" = "ship" ∧
      "ship" ∉ L2_COARSE := by
  decide

/-- C3 (amended): `l3_to_l2` is total and every input maps to one of the
4 coarse names or the fallback `"ship"`; each of the 31 defined
fine-grained names other than `"ship"` itself maps to one of the 4
coarse names; any input outside the 4 coarse outputs — in particular
`"ship"` and every unrecognized string — yields `"ship"`. -/
theorem l3_to_l2_total :
    (∀ s, l3_to_l2 s ∈ L2_COARSE ∨ l3_to_l2 s = "ship") ∧
    (∀ n ∈ HRSC_CLASSES, n ≠ "ship" → l3_to_l2 n ∈ L2_COARSE) ∧
    (∀ s, l3_to_l2 s ∉ L2_COARSE → l3_to_l2 s = "ship") := by
  have htot : ∀ s, l3_to_l2 s ∈ L2_COARSE ∨ l3_to_l2 s = "ship" := by
    intro s
    unfold l3_to_l2
    dsimp only
    split_ifs <;> simp [L2_COARSE]
  exact ⟨htot, by decide, fun s hs => (htot s).resolve_left hs⟩

/-- C3 witness: the fine name `"Kuznetsov"` is in the table, differs from
`"ship"`, and is mapped into the 4 coarse names. -/
theorem l3_to_l2_total_witness : l3_to_l2 "Kuznetsov" ∈ L2_COARSE :=
  l3_to_l2_total.2.1 "Kuznetsov" (by decide) (by decide)

/-- C4: the destination-write step is *not* error-free for every
destination path: a path with no directory component has `dirname` `""`,
and `os.makedirs("", exist_ok=True)` raises `FileNotFoundError`; a path
with a directory component succeeds with the parent auto-created. -/
theorem saveDest_bare_filename_fails :
    dirnameP "out.json" = "" ∧
    saveDest [] "out.json" = .error "FileNotFoundError" ∧
    saveDest [] "coco/out.json" = .ok ["coco/out.json", "coco"] :=
  ⟨rfl, rfl, rfl⟩

/-- C1: the Batch Converter does write category names with internal
whitespace, and the Assembler's whitespace-splitting parser then does not
recover them.  For one object of class id `100000002`
(`"aircraft carrier"`), the L2 (and raw L3) row carries the
space-containing name; parsing that row yields the category `"aircraft"`
(token 9) instead, and assembling it against the L2 class list drops the
instance entirely. -/
theorem l2_whitespace_breaks_roundtrip :
    rbox2poly_single (fun _ => (1, 0)) (10, 10, 4, 2, 0) =
      [8, 9, 12, 9, 12, 11, 8, 11] ∧
    full2nameGet "100000002" = "aircraft carrier" ∧
    l3_to_l2 "aircraft carrier" = "aircraft carrier" ∧
    convertRows false false (fun q => toString q.num ++ ".0")
        [([8, 9, 12, 9, 12, 11, 8, 11], "100000002", 0)] =
      (["8.0 9.0 12.0 9.0 12.0 11.0 8.0 11.0 ship 0"],
       ["8.0 9.0 12.0 9.0 12.0 11.0 8.0 11.0 aircraft carrier 0"],
       ["8.0 9.0 12.0 9.0 12.0 11.0 8.0 11.0 aircraft carrier 0"]) ∧
    (parse_dota_poly2
        ["8.0 9.0 12.0 9.0 12.0 11.0 8.0 11.0 aircraft carrier 0"]).map
        DotaObj.name = ["aircraft"] ∧
    (convert_one_split
        [("100.txt", ["8.0 9.0 12.0 9.0 12.0 11.0 8.0 11.0 aircraft carrier 0"])]
        [("100.bmp", (1024, 768))] L2_NAMES false).annotations = [] := by
  refine ⟨by norm_num [rbox2poly_single], by decide, by decide, ?_, by decide,
    by decide⟩
  decide

/-- C2 counterexample: under non-strict mode the space-to-underscore
variant is *not* tried.  `"aircraft carrier"` is dropped against the
sanitized L3 class list even though its space-to-underscore variant
`"aircraft_carrier"` is in that list. -/
theorem lenient_match_misses_space_to_underscore :
    resolveCategory L3_NAMES_SANITIZED false "aircraft carrier" = none ∧
    replC ' ' '_' "aircraft carrier" = "aircraft_carrier" ∧
    "aircraft_carrier" ∈ L3_NAMES_SANITIZED := by
  refine ⟨?_, ?_, ?_⟩ <;> decide

/-- Any name `resolveCategory` returns is a member of the class list (so
`class_names.index(name)` is defined and the assigned id is the matched
variant's 1-based position). -/
theorem resolveCategory_mem {class_names : List String} {strict : Bool}
    {name nm : String} (h : resolveCategory class_names strict name = some nm) :
    nm ∈ class_names := by
  unfold resolveCategory at h
  split_ifs at h with h1 h2
  · obtain rfl : name = nm := Option.some.inj h
    exact List.elem_iff.mp h1
  · have hp : class_names.contains nm = true := List.find?_some h
    exact List.elem_iff.mp hp

/-- C2 (amended): an exact member of the class list resolves to itself;
otherwise strict mode drops the instance; otherwise exactly the lowercase
variant and the underscore-to-space variant are tried, in that order, the
first one present in the class list winning and the instance being
dropped when neither is present (the space-to-underscore variant is never
tried); any resolved name is a member of the class list, determining the
assigned 1-based category id. -/
theorem resolveCategory_policy (class_names : List String) (strict : Bool)
    (name : String) :
    (name ∈ class_names → resolveCategory class_names strict name = some name) ∧
    (name ∉ class_names → resolveCategory class_names true name = none) ∧
    (name ∉ class_names →
      resolveCategory class_names false name =
        List.find? (fun t => class_names.contains t)
          [lowerS name, replC '_' ' ' name]) ∧
    (∀ nm, resolveCategory class_names strict name = some nm →
      nm ∈ class_names) := by
  have hmpr : name ∈ class_names → class_names.contains name = true :=
    fun h => List.elem_iff.mpr h
  have hf : name ∉ class_names → class_names.contains name = false := by
    intro h
    rw [Bool.eq_false_iff]
    intro hcc
    exact h (List.elem_iff.mp hcc)
  refine ⟨fun h => ?_, fun h => ?_, fun h => ?_, fun _ h => resolveCategory_mem h⟩
  · unfold resolveCategory
    rw [if_pos (hmpr h)]
  · have hneg : ¬(class_names.contains name = true) :=
      fun hcc => h (List.elem_iff.mp hcc)
    unfold resolveCategory
    rw [if_neg hneg, if_pos rfl]
  · have hneg : ¬(class_names.contains name = true) :=
      fun hcc => h (List.elem_iff.mp hcc)
    unfold resolveCategory
    rw [if_neg hneg, if_neg (by simp : ¬((false : Bool) = true))]
    exact List.find?_cons_of_neg _ hneg

/-- C7: for every rotated box with nonnegative width and height, at every
angle — represented by an arbitrary cosine/sine pair on the unit circle —
the shoelace area of the produced polygon is exactly `w * h`. -/
theorem poly_area_rbox2poly (tr : ℚ → ℚ × ℚ) (cx cy w h ang : ℚ)
    (hcs : (tr ang).1 ^ 2 + (tr ang).2 ^ 2 = 1) (hw : 0 ≤ w) (hh : 0 ≤ h) :
    poly_area (rbox2poly_single tr (cx, cy, w, h, ang)) = w * h := by
  simp only [rbox2poly_single, List.foldl, List.nil_append, List.cons_append,
    List.append_nil, poly_area, evens, odds, shoelaceSum, List.length_cons,
    List.length_nil]
  norm_num [List.range_succ, List.getD]
  have key :
      (-(w / 2 * (tr ang).1) + h / 2 * (tr ang).2 + cx) *
          (w / 2 * (tr ang).2 + -(h / 2 * (tr ang).1) + cy) -
        (w / 2 * (tr ang).1 + h / 2 * (tr ang).2 + cx) *
          (-(w / 2 * (tr ang).2) + -(h / 2 * (tr ang).1) + cy) +
        ((w / 2 * (tr ang).1 + h / 2 * (tr ang).2 + cx) *
            (w / 2 * (tr ang).2 + h / 2 * (tr ang).1 + cy) -
          (w / 2 * (tr ang).1 - h / 2 * (tr ang).2 + cx) *
            (w / 2 * (tr ang).2 + -(h / 2 * (tr ang).1) + cy)) +
        ((w / 2 * (tr ang).1 - h / 2 * (tr ang).2 + cx) *
            (-(w / 2 * (tr ang).2) + h / 2 * (tr ang).1 + cy) -
          (-(w / 2 * (tr ang).1) - h / 2 * (tr ang).2 + cx) *
            (w / 2 * (tr ang).2 + h / 2 * (tr ang).1 + cy)) +
        ((-(w / 2 * (tr ang).1) - h / 2 * (tr ang).2 + cx) *
            (-(w / 2 * (tr ang).2) + -(h / 2 * (tr ang).1) + cy) -
          (-(w / 2 * (tr ang).1) + h / 2 * (tr ang).2 + cx) *
            (-(w / 2 * (tr ang).2) + h / 2 * (tr ang).1 + cy)) = 2 * (w * h) := by
    linear_combination (2 * w * h) * hcs
  rw [key, abs_of_nonneg (by positivity : (0:ℚ) ≤ 2 * (w * h))]
  ring

/-- C7 witness: at the unit-circle point `(3/5, 4/5)` the box
`(10, 10, 4, 2)` has polygon area `4 * 2`. -/
theorem poly_area_rbox2poly_witness :
    ((3 : ℚ) / 5) ^ 2 + ((4 : ℚ) / 5) ^ 2 = 1 ∧ (0 : ℚ) ≤ 4 ∧ (0 : ℚ) ≤ 2 ∧
    poly_area (rbox2poly_single (fun _ => (3 / 5, 4 / 5)) (10, 10, 4, 2, 0)) =
      4 * 2 :=
  ⟨by norm_num, by norm_num, by norm_num,
   poly_area_rbox2poly (fun _ => (3 / 5, 4 / 5)) 10 10 4 2 0 (by norm_num)
     (by norm_num) (by norm_num)⟩

/-- C8: at angle zero (cosine 1, sine 0) the polygon is the axis-aligned
box `TL, TR, BR, BL` and its axis-aligned bounding box is exactly
`(cx − w/2, cy − h/2, w, h)`. -/
theorem rbox2poly_angle_zero (tr : ℚ → ℚ × ℚ) (cx cy w h ang : ℚ)
    (h0 : tr ang = (1, 0)) (hw : 0 ≤ w) (hh : 0 ≤ h) :
    rbox2poly_single tr (cx, cy, w, h, ang) =
      [cx - w / 2, cy - h / 2, cx + w / 2, cy - h / 2,
       cx + w / 2, cy + h / 2, cx - w / 2, cy + h / 2] ∧
    bboxOf (rbox2poly_single tr (cx, cy, w, h, ang)) =
      [cx - w / 2, cy - h / 2, w, h] := by
  have hpoly : rbox2poly_single tr (cx, cy, w, h, ang) =
      [cx - w / 2, cy - h / 2, cx + w / 2, cy - h / 2,
       cx + w / 2, cy + h / 2, cx - w / 2, cy + h / 2] := by
    simp only [rbox2poly_single, h0, List.foldl, List.nil_append,
      List.cons_append, List.append_nil]
    norm_num
    refine ⟨by ring, by ring, by ring, by ring, by ring, by ring, by ring,
      by ring⟩
  refine ⟨hpoly, ?_⟩
  rw [hpoly]
  have h1 : cx - w / 2 ≤ cx + w / 2 := by linarith
  have h2 : cy - h / 2 ≤ cy + h / 2 := by linarith
  simp only [bboxOf, evens, odds, listMin, listMax, List.foldl]
  rw [min_eq_left h1, min_eq_left h1, min_self,
      min_self, min_eq_left h2, min_eq_left h2,
      max_eq_right h1, max_self, max_eq_left h1,
      max_self, max_eq_right h2, max_self]
  simp only [List.cons.injEq, and_true]
  exact ⟨trivial, trivial, by ring, by ring⟩

/-- C8 witness: the sample box `(10, 10, 4, 2, 0)` gives the polygon
`8 9 12 9 12 11 8 11`, bbox `(8, 9, 4, 2)` and area `8`. -/
theorem rbox2poly_angle_zero_witness :
    rbox2poly_single (fun _ => (1, 0)) (10, 10, 4, 2, 0) =
      [8, 9, 12, 9, 12, 11, 8, 11] ∧
    bboxOf (rbox2poly_single (fun _ => (1, 0)) (10, 10, 4, 2, 0)) =
      [8, 9, 4, 2] ∧
    poly_area (rbox2poly_single (fun _ => (1, 0)) (10, 10, 4, 2, 0)) = 8 := by
  have h := rbox2poly_angle_zero (fun _ => (1, 0)) 10 10 4 2 0 rfl (by norm_num)
    (by norm_num)
  refine ⟨h.1.trans (by norm_num), h.2.trans (by norm_num), ?_⟩
  rw [h.1]
  norm_num [poly_area, evens, odds, shoelaceSum, List.range_succ, List.getD]

/-- `float("")` raises `ValueError`. -/
theorem pyFloat?_empty : pyFloat? "" = none := rfl

/-- An object node missing any of the five numeric box fields is dropped
by the extractor loop. -/
theorem parseItem_missing (tr : ℚ → ℚ × ℚ) (obj : XmlObj)
    (hmiss : obj.mbox_cx = none ∨ obj.mbox_cy = none ∨ obj.mbox_w = none ∨
      obj.mbox_h = none ∨ obj.mbox_ang = none) :
    parseItem tr obj = none := by
  rcases hmiss with h | h | h | h | h <;>
    simp only [parseItem, h, Option.getD_none, pyFloat?_empty,
      Option.none_bind] <;>
    cases pyFloat? (obj.mbox_cx.getD "") <;>
    cases pyFloat? (obj.mbox_cy.getD "") <;>
    cases pyFloat? (obj.mbox_w.getD "") <;>
    cases pyFloat? (obj.mbox_h.getD "") <;>
    simp

/-- C9 (amended): an unparseable document yields the empty item list (the
source also logs a warning); an object missing any of the five required
numeric fields is dropped without affecting its sibling objects; and a
kept object's difficulty flag is `1` exactly when the `difficult` field's
whitespace-stripped text equals `"1"` (the raw literal text may carry
surrounding whitespace), else `0`. -/
theorem parse_xml_items_error_policy (tr : ℚ → ℚ × ℚ) :
    parse_xml_items tr .unparseable = [] ∧
    (∀ (pre post : List XmlObj) (bad : XmlObj),
      bad.mbox_cx = none ∨ bad.mbox_cy = none ∨ bad.mbox_w = none ∨
        bad.mbox_h = none ∨ bad.mbox_ang = none →
      parse_xml_items tr (.parsed (some (pre ++ bad :: post))) =
        parse_xml_items tr (.parsed (some (pre ++ post)))) ∧
    (∀ (obj : XmlObj) poly cid d, parseItem tr obj = some (poly, cid, d) →
      (d = 1 ↔ trimS (obj.difficult.getD "0") = "1")) := by
  refine ⟨rfl, ?_, ?_⟩
  · intro pre post bad hmiss
    show List.filterMap (parseItem tr) (pre ++ bad :: post) =
      List.filterMap (parseItem tr) (pre ++ post)
    rw [List.filterMap_append, List.filterMap_append,
        List.filterMap_cons_none (parseItem_missing tr bad hmiss)]
  · intro obj poly cid d h
    simp only [parseItem, Option.bind_eq_some, Option.map_eq_some'] at h
    obtain ⟨cx, hcx, cy, hcy, w, hw, hh, hhh, ang, hang, heq⟩ := h
    obtain ⟨hp, hcd⟩ := Prod.mk.inj heq
    obtain ⟨hc, hd⟩ := Prod.mk.inj hcd
    subst hd
    by_cases hb : trimS (obj.difficult.getD "0") = "1"
    · simp [hb]
    · simp [hb]

/-- C9 counterexample: the difficulty flag is computed from the
*stripped* field text, not the literal text: the literal `" 1"` differs
from `"1"` yet yields difficulty `1`. -/
theorem difficulty_uses_stripped_text :
    (parse_xml_items (fun _ => (1, 0))
        (.parsed (some [⟨some "100000005", some " 1", some "10", some "10",
          some "4", some "2", some "0"⟩]))).map (fun it => it.2.2) = [1] ∧
    (" 1" : String) ≠ "1" :=
  ⟨by decide, by decide⟩

/-- C9 witness: a concrete unparseable document, a concrete object with
`mbox_cx` missing dropped from a singleton list, and the difficulty
characterization at a concrete kept object. -/
theorem parse_xml_items_error_policy_witness :
    parse_xml_items (fun _ => (1, 0)) .unparseable = [] ∧
    (XmlObj.mk (some "x") none none none none none none).mbox_cx = none ∧
    parse_xml_items (fun _ => (1, 0))
        (.parsed (some [⟨some "x", none, none, none, none, none, none⟩])) =
      parse_xml_items (fun _ => (1, 0)) (.parsed (some [])) ∧
    ((1 : Nat) = 1 ↔
      trimS ((XmlObj.mk (some "100000005") (some " 1") (some "10") (some "10")
        (some "4") (some "2") (some "0")).difficult.getD "0") = "1") := by
  refine ⟨(parse_xml_items_error_policy (fun _ => (1, 0))).1, rfl,
    (parse_xml_items_error_policy (fun _ => (1, 0))).2.1 [] [] _ (Or.inl rfl),
    ?_⟩
  obtain ⟨⟨p, c, d⟩, hob⟩ :
      ∃ it, parseItem (fun _ => (1, 0))
        (XmlObj.mk (some "100000005") (some " 1") (some "10") (some "10")
          (some "4") (some "2") (some "0")) = some it := ⟨_, rfl⟩
  have hiff := (parse_xml_items_error_policy (fun _ => (1, 0))).2.2 _ p c d hob
  have hd : d = 1 := hiff.mpr (by decide)
  exact hd ▸ hiff

/-- C2 witness: `"SHIP"` is not in the L1 class list, but its lowercase
variant is tried and resolves. -/
theorem resolveCategory_policy_witness :
    "SHIP" ∉ L1_NAMES ∧ resolveCategory L1_NAMES false "SHIP" = some "ship" := by
  refine ⟨by decide, ?_⟩
  rw [(resolveCategory_policy L1_NAMES false "SHIP").2.2.1 (by decide)]
  decide


/-- The per-object row builder emits identical L1 and L2 rows whether or
not L3 sanitization is requested: the sanitized name feeds only the L3
row. -/
theorem convertRows_sanitize_l1_l2 (strict_l2 : Bool) (fmt : ℚ → String)
    (items : List (List ℚ × String × Nat)) :
    ((convertRows strict_l2 true fmt items).1 =
      (convertRows strict_l2 false fmt items).1) ∧
    ((convertRows strict_l2 true fmt items).2.1 =
      (convertRows strict_l2 false fmt items).2.1) := by
  induction items with
  | nil => exact ⟨rfl, rfl⟩
  | cons it rest ih =>
    obtain ⟨poly, class_id, diff⟩ := it
    dsimp only [convertRows]
    refine ⟨by rw [ih.1], ?_⟩
    by_cases hc :
        (l3_to_l2 (full2nameGet class_id) == "ship" && strict_l2) = true
    · simp only [hc, if_true, ih.2]
    · simp only [hc, if_false, ih.2]

/-- C10: the sanitize-L3 flag does not influence the L1 and L2 outputs —
for every split, every annotation source and every strict-merge setting,
running the Batch Converter with sanitization on and off produces
identical per-stem L1 and L2 row lists. -/
theorem convert_split_sanitize_independent (tr : ℚ → ℚ × ℚ)
    (fmt : ℚ → String) (imgFiles : List String)
    (ann : String → Option XmlDoc) (strict_l2 : Bool) :
    (convert_split tr fmt imgFiles ann strict_l2 true).map
        (fun w => (w.stem, w.rows_l1, w.rows_l2)) =
      (convert_split tr fmt imgFiles ann strict_l2 false).map
        (fun w => (w.stem, w.rows_l1, w.rows_l2)) := by
  unfold convert_split
  rw [List.map_map, List.map_map]
  apply List.map_congr_left
  intro stem _
  simp only [Function.comp]
  cases hann : ann stem with
  | none => rfl
  | some doc =>
    have h := convertRows_sanitize_l1_l2 strict_l2 fmt (parse_xml_items tr doc)
    simp only [Prod.mk.injEq]
    exact ⟨trivial, h.1, h.2⟩

/-- `build_categories` assigns the ids `1..len` in class-list order. -/
theorem build_categories_from_map_id (idx : Nat) (cns : List String) :
    (build_categories_from idx cns).map CatEntry.id =
      List.range' (idx + 1) cns.length := by
  induction cns generalizing idx with
  | nil => simp [build_categories_from]
  | cons n rest ih =>
    simp [build_categories_from, List.range'_succ, ih]

/-- `class_names.index(name)` of a member is a valid 0-based index. -/
theorem indexOf_lt_of_mem {nm : String} {cns : List String} (h : nm ∈ cns) :
    List.indexOf nm cns < cns.length := by
  induction cns with
  | nil => cases h
  | cons c rest ih =>
    rw [List.mem_cons] at h
    by_cases hc : c == nm
    · simp [List.indexOf_cons, hc]
    · have : nm ∈ rest := by
        rcases h with h | h
        · exact absurd (by simp [h]) hc
        · exact h
      simp [List.indexOf_cons, hc, Nat.succ_lt_succ (ih this)]

/-- The object loop advances `ann_id` by the number of accepted
instances, assigns their ids as the consecutive block starting at
`ann_id`, stamps the current `image_id` on each, and assigns category
ids inside `1..len(class_names)`. -/
theorem objsLoop_spec (cns : List String) (strict : Bool) (image_id : Nat)
    (objs : List DotaObj) (ann_id : Nat) :
    (objsLoop cns strict image_id objs ann_id).2 =
        ann_id + (objsLoop cns strict image_id objs ann_id).1.length ∧
    (objsLoop cns strict image_id objs ann_id).1.map AnnEntry.id =
        List.range' ann_id (objsLoop cns strict image_id objs ann_id).1.length ∧
    ∀ a ∈ (objsLoop cns strict image_id objs ann_id).1,
      a.image_id = image_id ∧ a.category_id ∈ List.range' 1 cns.length := by
  induction objs generalizing ann_id with
  | nil => simp [objsLoop]
  | cons obj rest ih =>
    cases hres : resolveCategory cns strict obj.name with
    | none => simpa [objsLoop, hres] using ih ann_id
    | some nm =>
      obtain ⟨h2, hmap, hmem⟩ := ih (ann_id + 1)
      simp only [objsLoop, hres]
      refine ⟨?_, ?_, ?_⟩
      · simp only [List.length_cons, h2]
        omega
      · simp only [List.map_cons, List.length_cons, List.range'_succ, hmap]
      · intro a ha
        rcases List.mem_cons.mp ha with h | h
        · subst h
          refine ⟨rfl, ?_⟩
          dsimp only
          rw [List.mem_range']
          exact ⟨List.indexOf nm cns,
            indexOf_lt_of_mem (resolveCategory_mem hres), by omega⟩
        · exact hmem a h

/-- The label-file loop assigns image ids as the consecutive block
starting at `image_id`, annotation ids as the consecutive block starting
at `ann_id`, and every annotation references a registered image and a
valid category slot. -/
theorem splitLoop_spec (imageDir : List (String × Nat × Nat))
    (cns : List String) (strict : Bool)
    (lfs : List (String × List String)) (image_id ann_id : Nat) :
    (splitLoop imageDir cns strict lfs image_id ann_id).1.map ImgEntry.id =
        List.range' image_id
          (splitLoop imageDir cns strict lfs image_id ann_id).1.length ∧
    (splitLoop imageDir cns strict lfs image_id ann_id).2.map AnnEntry.id =
        List.range' ann_id
          (splitLoop imageDir cns strict lfs image_id ann_id).2.length ∧
    ∀ a ∈ (splitLoop imageDir cns strict lfs image_id ann_id).2,
      a.image_id ∈
          (splitLoop imageDir cns strict lfs image_id ann_id).1.map
            ImgEntry.id ∧
      a.category_id ∈ List.range' 1 cns.length := by
  induction lfs generalizing image_id ann_id with
  | nil => simp [splitLoop]
  | cons lf rest ih =>
    obtain ⟨fname, lines⟩ := lf
    cases hfind : findImage imageDir (stemOf fname) with
    | none => simpa [splitLoop, hfind] using ih image_id ann_id
    | some found =>
      obtain ⟨ho2, homap, homem⟩ :=
        objsLoop_spec cns strict image_id (parse_dota_poly2 lines) ann_id
      obtain ⟨hi, ha, hm⟩ :=
        ih (image_id + 1)
          (objsLoop cns strict image_id (parse_dota_poly2 lines) ann_id).2
      simp only [splitLoop, hfind]
      refine ⟨?_, ?_, ?_⟩
      · simp only [List.map_cons, List.length_cons, List.range'_succ, hi]
      · have happ := List.range'_append ann_id
          (objsLoop cns strict image_id (parse_dota_poly2 lines) ann_id).1.length
          (splitLoop imageDir cns strict rest (image_id + 1)
            (objsLoop cns strict image_id (parse_dota_poly2 lines) ann_id).2).2.length 1
        simp only [one_mul, Nat.mul_one] at happ
        rw [List.map_append, List.length_append, homap, ha, ho2]
        rw [ho2] at happ
        rw [happ]
        congr 1
        omega
      · intro a ha2
        rcases List.mem_append.mp ha2 with h | h
        · exact ⟨by rw [List.map_cons, (homem a h).1]; exact List.mem_cons_self _ _,
            (homem a h).2⟩
        · exact ⟨List.mem_cons_of_mem _ ((hm a h).1), (hm a h).2⟩

/-- C5: in one Assembler run, `images[]` ids are exactly `1..K` in
label-file iteration order, `annotations[]` ids are exactly `1..M'` in
acceptance order (so no id is reused), `categories[]` ids are exactly
`1..len(class_names)`, and every annotation's `image_id` and
`category_id` reference an entry present in `images[]` / `categories[]`. -/
theorem assembler_id_invariants (labelFiles : List (String × List String))
    (imageDir : List (String × Nat × Nat)) (class_names : List String)
    (strict : Bool) :
    (convert_one_split labelFiles imageDir class_names strict).images.map
        ImgEntry.id =
      List.range' 1
        (convert_one_split labelFiles imageDir class_names
          strict).images.length ∧
    (convert_one_split labelFiles imageDir class_names
        strict).annotations.map AnnEntry.id =
      List.range' 1
        (convert_one_split labelFiles imageDir class_names
          strict).annotations.length ∧
    (convert_one_split labelFiles imageDir class_names strict).categories.map
        CatEntry.id = List.range' 1 class_names.length ∧
    ∀ a ∈ (convert_one_split labelFiles imageDir class_names
        strict).annotations,
      a.image_id ∈
          (convert_one_split labelFiles imageDir class_names
            strict).images.map ImgEntry.id ∧
      a.category_id ∈
          (convert_one_split labelFiles imageDir class_names
            strict).categories.map CatEntry.id := by
  obtain ⟨hi, ha, hm⟩ :=
    splitLoop_spec imageDir class_names strict labelFiles 1 1
  have hcat : (convert_one_split labelFiles imageDir class_names
      strict).categories.map CatEntry.id = List.range' 1 class_names.length := by
    show (build_categories class_names).map CatEntry.id = _
    simpa using build_categories_from_map_id 0 class_names
  refine ⟨hi, ha, hcat, fun a haa => ⟨(hm a haa).1, ?_⟩⟩
  rw [hcat]
  exact (hm a haa).2

/-- C5 witness: one label file with one valid object over a one-class
list: image ids `[1]`, annotation ids `[1]`, and the annotation's
references resolve. -/
theorem assembler_id_invariants_witness :
    (convert_one_split [("100.txt", ["0 0 1 0 1 1 0 1 ship 0"])]
        [("100.bmp", (5, 7))] ["ship"] false).images.map ImgEntry.id = [1] ∧
    (convert_one_split [("100.txt", ["0 0 1 0 1 1 0 1 ship 0"])]
        [("100.bmp", (5, 7))] ["ship"] false).annotations.map AnnEntry.id =
      [1] ∧
    (convert_one_split [("100.txt", ["0 0 1 0 1 1 0 1 ship 0"])]
        [("100.bmp", (5, 7))] ["ship"] false).annotations.map
        AnnEntry.image_id = [1] ∧
    (convert_one_split [("100.txt", ["0 0 1 0 1 1 0 1 ship 0"])]
        [("100.bmp", (5, 7))] ["ship"] false).annotations.map
        AnnEntry.category_id = [1] := by
  have h := assembler_id_invariants [("100.txt", ["0 0 1 0 1 1 0 1 ship 0"])]
    [("100.bmp", (5, 7))] ["ship"] false
  obtain ⟨a0, hann⟩ :
      ∃ x, (convert_one_split [("100.txt", ["0 0 1 0 1 1 0 1 ship 0"])]
        [("100.bmp", (5, 7))] ["ship"] false).annotations = [x] := ⟨_, rfl⟩
  obtain ⟨i0, himgs⟩ :
      ∃ x, (convert_one_split [("100.txt", ["0 0 1 0 1 1 0 1 ship 0"])]
        [("100.bmp", (5, 7))] ["ship"] false).images = [x] := ⟨_, rfl⟩
  have hmem : a0 ∈ (convert_one_split [("100.txt", ["0 0 1 0 1 1 0 1 ship 0"])]
      [("100.bmp", (5, 7))] ["ship"] false).annotations := by
    rw [hann]
    exact List.mem_singleton_self a0
  have hio := (h.2.2.2 a0 hmem).1
  have hco := (h.2.2.2 a0 hmem).2
  have himg : (convert_one_split [("100.txt", ["0 0 1 0 1 1 0 1 ship 0"])]
      [("100.bmp", (5, 7))] ["ship"] false).images.map ImgEntry.id = [1] := by
    have h1 := h.1
    rw [himgs] at h1 ⊢
    simpa using h1
  have hcat : (convert_one_split [("100.txt", ["0 0 1 0 1 1 0 1 ship 0"])]
      [("100.bmp", (5, 7))] ["ship"] false).categories.map CatEntry.id =
      [1] := by
    have h3 := h.2.2.1
    simpa using h3
  refine ⟨himg, ?_, ?_, ?_⟩
  · have h2 := h.2.1
    rw [hann] at h2 ⊢
    simpa using h2
  · rw [himg] at hio
    rw [hann]
    simp [List.mem_singleton.mp hio]
  · rw [hcat] at hco
    rw [hann]
    simp [List.mem_singleton.mp hco]

/-- C6 counterexample: two images sharing the stem `"a"` (`a.bmp`,
`a.png`) are N = 2 images, yet both label writes target the same output
file per level, so each level's directory ends up with 1 file, not N. -/
theorem duplicate_stems_collapse_outputs :
    (["a.bmp", "a.png"] : List String).length = 2 ∧
    (convert_split (fun _ => (1, 0)) (fun _ => "") ["a.bmp", "a.png"]
        (fun _ => none) false false).map SplitWrite.stem = ["a", "a"] ∧
    ((convert_split (fun _ => (1, 0)) (fun _ => "") ["a.bmp", "a.png"]
        (fun _ => none) false false).map SplitWrite.stem).dedup.length = 1 :=
  ⟨rfl, by decide, by decide⟩

/-- C6 (amended): the Batch Converter performs exactly one write per
level per entry of the image-stem list, in listing order, so the output
files per level are in 1:1 correspondence with the *distinct* image
stems — exactly N per level when the N recognized images have distinct
stems — and every image whose annotation document does not exist gets
empty files at all three levels. -/
theorem convert_split_alignment (tr : ℚ → ℚ × ℚ) (fmt : ℚ → String)
    (imgFiles : List String) (ann : String → Option XmlDoc)
    (strict_l2 sanitize_l3 : Bool) :
    (convert_split tr fmt imgFiles ann strict_l2 sanitize_l3).map
        SplitWrite.stem = img_stems imgFiles ∧
    ((convert_split tr fmt imgFiles ann strict_l2 sanitize_l3).map
        SplitWrite.stem).dedup = (img_stems imgFiles).dedup ∧
    ((img_stems imgFiles).Nodup →
      ((convert_split tr fmt imgFiles ann strict_l2 sanitize_l3).map
          SplitWrite.stem).dedup.length = (img_stems imgFiles).length) ∧
    ∀ w ∈ convert_split tr fmt imgFiles ann strict_l2 sanitize_l3,
      ann w.stem = none →
        w.rows_l1 = [] ∧ w.rows_l2 = [] ∧ w.rows_l3 = [] := by
  have hstem : (convert_split tr fmt imgFiles ann strict_l2 sanitize_l3).map
      SplitWrite.stem = img_stems imgFiles := by
    unfold convert_split
    rw [List.map_map]
    have : ∀ s ∈ img_stems imgFiles,
        (SplitWrite.stem ∘ fun stem =>
          match ann stem with
          | none => ⟨stem, [], [], []⟩
          | some doc =>
            let items := parse_xml_items tr doc
            let r := convertRows strict_l2 sanitize_l3 fmt items
            ⟨stem, r.1, r.2.1, r.2.2⟩) s = id s := by
      intro s _
      simp only [Function.comp_apply, id_eq]
      cases h : ann s <;> simp only [h]
    rw [List.map_congr_left this, List.map_id]
  refine ⟨hstem, by rw [hstem], fun hnd => ?_, ?_⟩
  · rw [hstem, List.dedup_eq_self.mpr hnd]
  · intro w hw hannw
    unfold convert_split at hw
    obtain ⟨stem, hsmem, heq⟩ := List.mem_map.mp hw
    cases hann2 : ann stem with
    | none =>
      simp only [hann2] at heq
      rw [← heq]
      exact ⟨rfl, rfl, rfl⟩
    | some doc =>
      exfalso
      simp only [hann2] at heq
      rw [← heq] at hannw
      simp only at hannw
      rw [hann2] at hannw
      cases hannw

/-- C6 witness: two images with distinct stems, one lacking its
annotation document: two files per level, and the unannotated stem's
files are empty at all three levels. -/
theorem convert_split_alignment_witness :
    (img_stems ["100.bmp", "200.bmp"]).Nodup ∧
    ((convert_split (fun _ => (1, 0)) (fun _ => "") ["100.bmp", "200.bmp"]
        (fun s => if s == "100" then some (XmlDoc.parsed none) else none)
        false false).map SplitWrite.stem).dedup.length = 2 ∧
    (⟨"200", [], [], []⟩ : SplitWrite) ∈
      convert_split (fun _ => (1, 0)) (fun _ => "") ["100.bmp", "200.bmp"]
        (fun s => if s == "100" then some (XmlDoc.parsed none) else none)
        false false ∧
    ((fun s => if s == "100" then some (XmlDoc.parsed none) else none)
        (⟨"200", [], [], []⟩ : SplitWrite).stem = none) ∧
    (⟨"200", [], [], []⟩ : SplitWrite).rows_l1 = [] ∧
    (⟨"200", [], [], []⟩ : SplitWrite).rows_l2 = [] ∧
    (⟨"200", [], [], []⟩ : SplitWrite).rows_l3 = [] := by
  have h := convert_split_alignment (fun _ => (1, 0)) (fun _ => "")
    ["100.bmp", "200.bmp"]
    (fun s => if s == "100" then some (XmlDoc.parsed none) else none)
    false false
  have hrows := h.2.2.2 ⟨"200", [], [], []⟩ (by decide) rfl
  exact ⟨by decide, (h.2.2.1 (by decide)).trans (by decide), by decide, rfl,
    hrows.1, hrows.2.1, hrows.2.2⟩
end ReDet
